import Mathlib

/-!
Verification of the script repository (`src/scripts/manager.py`) and the
execution harness (`src/blender/executor.py`) of the blender-mcp project.

The repository state is embedded shallowly: the three on-disk stores
(script files under `scripts/`, result files under `results/`, and the
`metadata.json` index held in `self.metadata`) become three association
lists keyed by script name.  Python `dict` preserves insertion order and
updates keys in place, which the association-list operations below mirror.
Wall-clock timestamps (`datetime.datetime.now().isoformat()`) are abstracted
to a `Nat` parameter `now` supplied by the caller.  A Python exception
raised by a repository method is modelled as an `Except.error` carrying the
kind of exception; mutations performed before the raise are kept in the
returned state, as they are in Python.
-/

set_option autoImplicit false

namespace BlenderMcp

/-- Metadata entry for one script, as created by `ScriptManager.add_script`
(`manager.py` lines 84-90): `created`, `last_modified`, `last_executed`
(nullable), `execution_count`.  Timestamps are abstract `Nat` values. -/
structure ScriptMeta where
  created : Nat
  last_modified : Nat
  last_executed : Option Nat
  execution_count : Nat
deriving Repr, DecidableEq

/-- The durable state owned by a `ScriptManager`: the content store
(`scripts/<name>.py` files), the metadata index (`metadata.json`), and the
result store (`results/<name>.txt` files), each keyed by script name. -/
structure RepoState where
  scripts : List (String × String)
  metadata : List (String × ScriptMeta)
  results : List (String × String)
deriving Repr, DecidableEq

/-- Kinds of Python exception a `ScriptManager` method can raise:
`validation` is the `ValueError` from `_validate_script_name`;
`alreadyExists` is the `ValueError` "Script already exists" in `add_script`;
`notFound` is the `ValueError` "Script not found" in `edit_script`,
`get_script` and `remove_script`; `keyError` is an *undocumented* Python
`KeyError` escaping from a bare `self.metadata[name]` subscript. -/
inductive RepoError where
  | validation
  | alreadyExists
  | notFound
  | keyError
deriving Repr, DecidableEq

/-- Lookup in an association list, first binding wins (a Python `dict` has
at most one binding per key). -/
def alookup {α : Type} (l : List (String × α)) (k : String) : Option α :=
  match l with
  | [] => none
  | (k', v) :: rest => if k' = k then some v else alookup rest k

/-- Update `d[k] = v` on a Python `dict`: replace the binding in place when the key
is present, otherwise append the new binding (insertion order preserved). -/
def ainsert {α : Type} (l : List (String × α)) (k : String) (v : α) :
    List (String × α) :=
  match l with
  | [] => [(k, v)]
  | (k', v') :: rest =>
    if k' = k then (k, v) :: rest else (k', v') :: ainsert rest k v

/-- Deletion `del d[k]` / file unlink: drop every binding for `k`. -/
def aremove {α : Type} (l : List (String × α)) (k : String) :
    List (String × α) :=
  match l with
  | [] => []
  | (k', v') :: rest =>
    if k' = k then aremove rest k else (k', v') :: aremove rest k

instance {ε α : Type} [DecidableEq ε] [DecidableEq α] : DecidableEq (Except ε α)
  | .error a, .error b =>
    if h : a = b then .isTrue (by rw [h])
    else .isFalse (by intro hc; cases hc; exact h rfl)
  | .error _, .ok _ => .isFalse (by intro hc; cases hc)
  | .ok _, .error _ => .isFalse (by intro hc; cases hc)
  | .ok a, .ok b =>
    if h : a = b then .isTrue (by rw [h])
    else .isFalse (by intro hc; cases hc; exact h rfl)

theorem alookup_ainsert {α : Type} (l : List (String × α)) (k k' : String)
    (v : α) :
    alookup (ainsert l k v) k' = if k = k' then some v else alookup l k' := by
  induction l with
  | nil => simp [ainsert, alookup]
  | cons hd tl ih =>
    obtain ⟨a, b⟩ := hd
    by_cases hak : a = k
    · subst hak
      by_cases hak' : a = k' <;> simp [ainsert, alookup, hak', ih]
    · by_cases hak' : a = k'
      · subst hak'
        have hk : ¬ k = a := fun h => hak h.symm
        simp [ainsert, alookup, hak, hk]
      · simp [ainsert, alookup, hak, hak', ih]

theorem alookup_aremove {α : Type} (l : List (String × α)) (k k' : String) :
    alookup (aremove l k) k' = if k = k' then none else alookup l k' := by
  induction l with
  | nil => simp [aremove, alookup]
  | cons hd tl ih =>
    obtain ⟨a, b⟩ := hd
    by_cases hak : a = k
    · subst hak
      by_cases hak' : a = k'
      · subst hak'
        simpa [aremove, alookup] using ih
      · simp [aremove, alookup, hak', ih]
    · by_cases hak' : a = k'
      · subst hak'
        have hk : ¬ k = a := fun h => hak h.symm
        simp [aremove, alookup, hak, hk]
      · simp [aremove, alookup, hak, hak', ih]

/-- Character class `[a-zA-Z0-9_-]` of the validation pattern in
`ScriptManager._validate_script_name` (`manager.py` line 52). -/
def isNameChar (c : Char) : Bool :=
  (('a' ≤ c && c ≤ 'z') || ('A' ≤ c && c ≤ 'Z') ||
   ('0' ≤ c && c ≤ '9') || c = '_' || c = '-')

/-- Semantics of Python `re.match(r'^[a-zA-Z0-9_-]+$', name)` is not None
(`manager.py` line 52).  `re.match` anchors at the start; `[...]+` must
consume at least one class character; Python `$` (without `re.MULTILINE`)
matches at the end of the string *or just before a newline at the end of
the string*.  Hence a match exists iff the whole string is a nonempty run
of class characters, or a nonempty run of class characters followed by one
final newline. -/
def pyMatch (l : List Char) : Bool :=
  (!l.isEmpty && l.all isNameChar) ||
  (match l.getLast? with
   | some c =>
     c = '\n' && !l.dropLast.isEmpty && l.dropLast.all isNameChar
   | none => false)

/-- Embeds `ScriptManager._validate_script_name` (`manager.py` lines 50-54):
returns the name unchanged when the pattern matches, raises `ValueError`
otherwise.  Embedded as the boolean acceptance test; every repository
operation below guards on it first, exactly as each method's first
statement is `name = self._validate_script_name(name)`. -/
def validScriptName (name : String) : Bool :=
  pyMatch name.data

/-- Embeds `ScriptManager.list_scripts` (`manager.py` lines 56-63): a snapshot of
the metadata index in index (insertion) order, each entry paired with its
name.  Reads only; the state is returned unchanged. -/
def list_scripts (st : RepoState) : List (String × ScriptMeta) × RepoState :=
  (st.metadata, st)

/-- Embeds `ScriptManager.add_script` (`manager.py` lines 65-91): validate the
name; raise `ValueError` ("already exists") when the content file
`scripts/<name>.py` exists; otherwise write the content, insert a fresh
metadata entry with `created = last_modified = now`, `last_executed =
None`, `execution_count = 0`, and persist the index. -/
def add_script (st : RepoState) (now : Nat) (name content : String) :
    Except RepoError Unit × RepoState :=
  if !validScriptName name then (.error .validation, st)
  else if (alookup st.scripts name).isSome then (.error .alreadyExists, st)
  else
    (.ok (), { st with
      scripts := ainsert st.scripts name content,
      metadata := ainsert st.metadata name
        { created := now, last_modified := now,
          last_executed := none, execution_count := 0 } })

/-- Embeds `ScriptManager.edit_script` (`manager.py` lines 93-114): validate the
name; raise `ValueError` ("not found") when the content file does *not*
exist; otherwise overwrite the content, then run
`self.metadata[name]["last_modified"] = now` — a bare subscript which
raises `KeyError` when the content file exists but the metadata entry does
not (the orphan state).  The content overwrite performed before the raise
is kept in the returned state, as in Python. -/
def edit_script (st : RepoState) (now : Nat) (name content : String) :
    Except RepoError Unit × RepoState :=
  if !validScriptName name then (.error .validation, st)
  else if (alookup st.scripts name).isNone then (.error .notFound, st)
  else
    let st1 := { st with scripts := ainsert st.scripts name content }
    match alookup st.metadata name with
    | none => (.error .keyError, st1)
    | some m =>
      (.ok (), { st1 with
        metadata := ainsert st.metadata name { m with last_modified := now } })

/-- Embeds `ScriptManager.get_script` (`manager.py` lines 116-133): validate the
name; raise `ValueError` ("not found") when the content file does not
exist; otherwise return the file contents.  Reads only. -/
def get_script (st : RepoState) (name : String) :
    Except RepoError String × RepoState :=
  if !validScriptName name then (.error .validation, st)
  else
    match alookup st.scripts name with
    | none => (.error .notFound, st)
    | some c => (.ok c, st)

/-- Embeds `ScriptManager.remove_script` (`manager.py` lines 135-159): validate
the name; raise `ValueError` ("not found") when the content file does not
exist; otherwise unlink the content file, unlink the result file if it
exists, and delete the metadata entry (guarded by `if name in
self.metadata`) persisting the index. -/
def remove_script (st : RepoState) (name : String) :
    Except RepoError Unit × RepoState :=
  if !validScriptName name then (.error .validation, st)
  else if (alookup st.scripts name).isNone then (.error .notFound, st)
  else
    (.ok (), { st with
      scripts := aremove st.scripts name,
      results := aremove st.results name,
      metadata := aremove st.metadata name })

/-- Embeds `ScriptManager.save_result` (`manager.py` lines 161-181): validate the
name; write the result file unconditionally (no existence check on the
script); then, only if a metadata entry exists, set `last_executed = now`
and `execution_count = metadata[name].get("execution_count", 0) + 1`
(every entry created by `add_script` carries the field, so the `.get`
default never fires in states reachable through this model) and persist
the index.  With no metadata entry, the metadata is left untouched. -/
def save_result (st : RepoState) (now : Nat) (name result : String) :
    Except RepoError Unit × RepoState :=
  if !validScriptName name then (.error .validation, st)
  else
    let st1 := { st with results := ainsert st.results name result }
    match alookup st.metadata name with
    | none => (.ok (), st1)
    | some m =>
      (.ok (), { st1 with
        metadata := ainsert st.metadata name
          { m with last_executed := some now,
                   execution_count := m.execution_count + 1 } })

/-- The soft-miss sentinel text returned by `ScriptManager.get_result`
when no result file exists: `f"No execution results found for script
'{name}'"` (`manager.py` line 197). -/
def noResultsMsg (name : String) : String :=
  "No execution results found for script '" ++ name ++ "'"

/-- Embeds `ScriptManager.get_result` (`manager.py` lines 183-200): validate the
name; when no result file exists return the sentinel soft-miss message
(an ordinary return, not an exception); otherwise return the file
contents.  Reads only. -/
def get_result (st : RepoState) (name : String) :
    Except RepoError String × RepoState :=
  if !validScriptName name then (.error .validation, st)
  else
    match alookup st.results name with
    | none => (.ok (noResultsMsg name), st)
    | some r => (.ok r, st)

/-- Outcome of the `subprocess.run` call in `BlenderExecutor.execute`
(`executor.py` lines 120-126): the process completed with a return code
and its raw captured stdout/stderr, the wait hit `subprocess.TimeoutExpired`,
or some other exception was raised while launching/communicating. -/
inductive ProcOutcome where
  | completed (returncode : Int) (stdout stderr : String)
  | timedOut
  | raised (msg : String)
deriving Repr, DecidableEq

/-- The subprocess phase of `BlenderExecutor.execute` (`executor.py` lines
120-146), as a function of the process outcome and of the state of the
output file after the run (`some contents` when `output_file.exists()`,
`none` otherwise).  A completed run reads the output file (substituting
"No output captured from script." when absent) and, exactly when the
return code is nonzero, appends the diagnostic block built at lines
136-139; a timeout returns the timeout message of line 144; any other
exception returns the message of line 146.  Every outcome is a returned
string — the method raises nothing past these handlers. -/
def executeResult (timeout : Nat) (outcome : ProcOutcome)
    (outputFile : Option String) : String :=
  match outcome with
  | .completed rc pout perr =>
    let script_output :=
      match outputFile with
      | some s => s
      | none => "No output captured from script."
    if rc ≠ 0 then
      script_output ++ "\n\nBlender process output:\n" ++
        "STDOUT: " ++ pout ++ "\n" ++ "STDERR: " ++ perr
    else
      script_output
  | .timedOut =>
    "Script execution timed out after " ++ toString timeout ++ " seconds"
  | .raised msg => "Error executing script: " ++ msg

/-- Embeds `script_content.replace('\n', '\n    ')` (`executor.py` line 86):
Python `str.replace` with a single-character pattern rewrites each
occurrence independently, so each newline becomes a newline followed by
four spaces. -/
def indentChars : List Char → List Char
  | [] => []
  | c :: rest =>
    if c = '\n' then '\n' :: ' ' :: ' ' :: ' ' :: ' ' :: indentChars rest
    else c :: indentChars rest

/-- Split a character list at newlines (the line structure of a text;
`n` newlines give `n + 1` lines, the separators dropped). -/
def splitLines : List Char → List (List Char)
  | [] => [[]]
  | c :: rest =>
    if c = '\n' then [] :: splitLines rest
    else
      match splitLines rest with
      | [] => [[c]]
      | l :: ls => (c :: l) :: ls

/-- The fixed text of the envelope template before the substituted script
content: `executor.py` lines 71-85, the part of the f-string literal up to
(and including) the newline that precedes `{script_content...}`. -/
def envPre : String :=
  "\nimport sys\nimport io\nimport traceback\n\n# Redirect stdout and stderr\nold_stdout = sys.stdout\nold_stderr = sys.stderr\nstdout_buffer = io.StringIO()\nstderr_buffer = io.StringIO()\nsys.stdout = stdout_buffer\nsys.stderr = stderr_buffer\n\ntry:\n    # Execute the script\n"

/-- The fixed envelope text between the substituted script content and the
substituted output-file path: `executor.py` lines 87-96 (`\x7b\x7be\x7d\x7d` in the
f-string renders as a literal brace pair around `e`). -/
def envMid : String :=
  "\nexcept Exception as e:\n    print(f\"Error executing script: \x7be\x7d\")\n    traceback.print_exc()\nfinally:\n    # Restore stdout and stderr\n    sys.stdout = old_stdout\n    sys.stderr = old_stderr\n    \n    # Write output to file\n    with open(r\""

/-- The fixed envelope text after the substituted output-file path:
`executor.py` lines 96-100 (`\\n\\n` in the f-string renders as the
two-character sequences backslash-n backslash-n). -/
def envPost : String :=
  "\", \"w\") as output:\n        output.write(stdout_buffer.getvalue())\n        output.write(\"\\n\\n\")\n        output.write(stderr_buffer.getvalue())\n"

/-- The envelope source written to the temporary script file by
`BlenderExecutor.execute` (`executor.py` lines 69-101): the fixed template
with the script content substituted after `replace('\n', '\n    ')` and
the output-file path substituted into the `open(r"...")` call. -/
def wrappedScript (outputFile content : String) : String :=
  envPre ++ String.mk (indentChars content.data) ++ envMid ++
    outputFile ++ envPost

theorem splitLines_ne_nil (cs : List Char) : splitLines cs ≠ [] := by
  induction cs with
  | nil => simp [splitLines]
  | cons c rest ih =>
    by_cases h : c = '\n'
    · simp [splitLines, h]
    · simp only [splitLines, if_neg h]
      rcases hs : splitLines rest with _ | ⟨l, ls⟩ <;> simp

theorem splitLines_indentChars (cs : List Char) :
    splitLines (indentChars cs) =
      (splitLines cs).headD [] ::
        (splitLines cs).tail.map (fun l => ' ' :: ' ' :: ' ' :: ' ' :: l) := by
  induction cs with
  | nil => rfl
  | cons c rest ih =>
    obtain ⟨h0, t0, heq⟩ :=
      List.exists_cons_of_ne_nil (splitLines_ne_nil rest)
    by_cases h : c = '\n'
    · subst h
      simp only [indentChars, if_pos rfl, splitLines, if_neg (by decide :
        ¬ (' ' = '\n'))]
      rw [ih, heq]
      simp
    · simp only [indentChars, if_neg h, splitLines]
      rw [ih, heq]
      simp [heq]

/-- The existence agreement between the content store and the metadata
index: a script exists iff both its content file and its metadata entry
exist (spec section 3). -/
def consistent (st : RepoState) : Prop :=
  ∀ name, (alookup st.scripts name).isSome ↔ (alookup st.metadata name).isSome

/-- The orphan repository state used as a concrete counterexample: the
content file for script "s" exists but the metadata index is empty (the
state §3 of the spec describes after a corrupted-index reset). -/
def orphanState : RepoState :=
  { scripts := [("s", "print(1)")], metadata := [], results := [] }

/-- C1: for every valid name and every result text, `save_result` returns
normally and stores the text as the result for the name unconditionally —
in any repository state, including states with no content unit for the
name; when a metadata entry exists it sets `last_executed` to the current
time and increments `execution_count` by exactly one, whatever the text
is; when no metadata entry exists the metadata index is left untouched. -/
theorem save_result_spec (st : RepoState) (now : Nat) (name text : String)
    (hv : validScriptName name = true) :
    (save_result st now name text).1 = Except.ok () ∧
    alookup (save_result st now name text).2.results name = some text ∧
    (∀ m, alookup st.metadata name = some m →
      alookup (save_result st now name text).2.metadata name =
        some { m with last_executed := some now,
                      execution_count := m.execution_count + 1 }) ∧
    (alookup st.metadata name = none →
      (save_result st now name text).2.metadata = st.metadata) := by
  rcases hm : alookup st.metadata name with _ | m <;>
    simp [save_result, hv, hm, alookup_ainsert]

theorem save_result_spec_witness :
    (save_result
      { scripts := [], results := [],
        metadata := [("a", { created := 1, last_modified := 1,
                             last_executed := none, execution_count := 4 })] }
      9 "a" "Error executing script: boom").2.metadata =
      [("a", { created := 1, last_modified := 1,
               last_executed := some 9, execution_count := 5 })] := by
  have h := save_result_spec
    { scripts := [], results := [],
      metadata := [("a", { created := 1, last_modified := 1,
                           last_executed := none, execution_count := 4 })] }
    9 "a" "Error executing script: boom" (by decide)
  have h2 := h.2.2.1
    { created := 1, last_modified := 1,
      last_executed := none, execution_count := 4 } (by decide)
  revert h2
  decide

/-- C2: for every valid name and content, in any state where the script
does not yet exist, `add_script` followed by `get_script` returns exactly
the content that was added. -/
theorem add_get_roundtrip (st : RepoState) (now : Nat)
    (name content : String) (hv : validScriptName name = true)
    (habs : alookup st.scripts name = none) :
    (get_script (add_script st now name content).2 name).1 =
      Except.ok content := by
  simp [add_script, get_script, hv, habs, alookup_ainsert]

theorem add_get_roundtrip_witness :
    (get_script
      (add_script { scripts := [], metadata := [], results := [] }
        3 "hello_cube" "import bpy").2 ("hello_cube")).1 =
      Except.ok ("import bpy") :=
  add_get_roundtrip { scripts := [], metadata := [], results := [] }
    3 "hello_cube" "import bpy" (by decide) (by decide)

/-- C3 counterexample: in the orphan state (a content unit for "s", no
metadata entry), `edit_script` does *not* fail with `NotFound` — refuting
"fails with NotFound exactly when no metadata entry exists" — and instead
escapes with the undocumented Python `KeyError` from
`self.metadata[name]["last_modified"]`, refuting "every repository
operation … tolerates the inconsistency … never crashing with an
unhandled exception". -/
theorem edit_orphan_counterexample :
    validScriptName ("s") = true ∧
    alookup BlenderMcp.orphanState.metadata ("s") = none ∧
    (edit_script BlenderMcp.orphanState 5 "s" "x").1 ≠
      Except.error RepoError.notFound ∧
    (edit_script BlenderMcp.orphanState 5 "s" "x").1 =
      Except.error RepoError.keyError := by
  decide

/-- C3 amended: for every valid name, `edit_script` fails with `NotFound`
exactly when no *content unit* exists for the name; in the orphan state
(content unit present, metadata entry absent) `remove_script` tolerates
the inconsistency and returns normally, but `edit_script` crashes with an
unhandled `KeyError` after overwriting the content. -/
theorem edit_notfound_amended (st : RepoState) (now : Nat)
    (name content : String) (hv : validScriptName name = true) :
    ((edit_script st now name content).1 = Except.error RepoError.notFound ↔
      alookup st.scripts name = none) ∧
    ((alookup st.scripts name).isSome = true →
      alookup st.metadata name = none →
      (edit_script st now name content).1 = Except.error RepoError.keyError ∧
      alookup (edit_script st now name content).2.scripts name =
        some content ∧
      (remove_script st name).1 = Except.ok ()) := by
  constructor
  · rcases hs : alookup st.scripts name with _ | c
    · simp [edit_script, hv, hs]
    · rcases hm : alookup st.metadata name with _ | m <;>
        simp [edit_script, hv, hs, hm]
  · intro hs hm
    rcases hs' : alookup st.scripts name with _ | c
    · rw [hs'] at hs; simp at hs
    · refine ⟨?_, ?_, ?_⟩
      · simp [edit_script, hv, hs', hm]
      · simp [edit_script, hv, hs', hm, alookup_ainsert]
      · simp [remove_script, hv, hs']

theorem edit_notfound_amended_witness :
    (edit_script BlenderMcp.orphanState 5 "s" "x").1 =
      Except.error RepoError.keyError ∧
    (remove_script BlenderMcp.orphanState ("s")).1 = Except.ok () := by
  have h := (edit_notfound_amended BlenderMcp.orphanState 5 "s" "x"
    (by decide)).2 (by decide) (by decide)
  exact ⟨h.1, h.2.2⟩

theorem pyMatch_iff (l : List Char) :
    pyMatch l = true ↔
      (l ≠ [] ∧ l.all isNameChar = true) ∨
      (∃ s, l = s ++ ['\n'] ∧ s ≠ [] ∧ s.all isNameChar = true) := by
  rcases List.eq_nil_or_concat l with rfl | ⟨s0, a, rfl⟩
  · simp [pyMatch]
  · rw [List.concat_eq_append]
    simp only [pyMatch, List.getLast?_concat, List.dropLast_concat,
      Bool.or_eq_true, Bool.and_eq_true, Bool.not_eq_true',
      List.isEmpty_eq_false, List.isEmpty_iff, decide_eq_true_eq]
    constructor
    · rintro (⟨h1, h2⟩ | ⟨⟨h1, h2⟩, h3⟩)
      · exact Or.inl ⟨h1, h2⟩
      · exact Or.inr ⟨s0, by rw [h1], h2, h3⟩
    · rintro (⟨h1, h2⟩ | ⟨s, heq, hne, hall⟩)
      · exact Or.inl ⟨h1, h2⟩
      · obtain ⟨rfl, ha⟩ := List.append_inj' heq rfl
        have ha' : a = '\n' := by injection ha
        exact Or.inr ⟨⟨ha', hne⟩, hall⟩

/-- C4 counterexample: the validator accepts "abc\n", a name containing a
character outside `[A-Za-z0-9_-]` — Python's `$` (no `re.MULTILINE`)
matches just before a newline at the end of the string, so
`re.match(r'^[a-zA-Z0-9_-]+$', name)` succeeds on a class-only name with
one trailing newline, refuting "accepts iff the full string matches
`^[A-Za-z0-9_-]+$` … every name containing any other character is
rejected". -/
theorem validator_trailing_newline_counterexample :
    validScriptName ("abc\n") = true ∧
    '\n' ∈ "abc\n".data ∧
    isNameChar '\n' = false := by
  decide

/-- C4 amended: the validator accepts a name iff it is a non-empty string
of characters from `[A-Za-z0-9_-]`, *or* such a string followed by exactly
one trailing newline; names containing '/', a space, or '.' (hence "..")
anywhere are still rejected, and for a rejected name every repository
operation returns the validation error with the state unchanged, before
any mutation. -/
theorem validator_amended (name : String) :
    (validScriptName name = true ↔
      (name.data ≠ [] ∧ name.data.all isNameChar = true) ∨
      (∃ s, name.data = s ++ ['\n'] ∧ s ≠ [] ∧
        s.all isNameChar = true)) ∧
    ((∃ c, c ∈ name.data ∧ (c = '/' ∨ c = ' ' ∨ c = '.')) →
      validScriptName name = false) ∧
    (validScriptName name = false →
      ∀ st now content text,
        add_script st now name content = (Except.error RepoError.validation, st) ∧
        edit_script st now name content = (Except.error RepoError.validation, st) ∧
        get_script st name = (Except.error RepoError.validation, st) ∧
        remove_script st name = (Except.error RepoError.validation, st) ∧
        save_result st now name text = (Except.error RepoError.validation, st) ∧
        get_result st name = (Except.error RepoError.validation, st)) := by
  refine ⟨pyMatch_iff name.data, ?_, ?_⟩
  · rintro ⟨c, hc, hc3⟩
    have hnc : isNameChar c = false := by
      rcases hc3 with rfl | rfl | rfl <;> decide
    have hne : c ≠ '\n' := by
      rcases hc3 with rfl | rfl | rfl <;> decide
    rcases hb : validScriptName name with _ | _
    · rfl
    · exfalso
      rcases (pyMatch_iff name.data).mp hb with ⟨_, hall⟩ | ⟨s, heq, _, hall⟩
      · rw [List.all_eq_true] at hall
        simpa [hnc] using hall c hc
      · rw [heq] at hc
        rcases List.mem_append.mp hc with hcs | hcn
        · rw [List.all_eq_true] at hall
          simpa [hnc] using hall c hcs
        · exact hne (List.mem_singleton.mp hcn)
  · intro h st now content text
    simp [add_script, edit_script, get_script, remove_script,
      save_result, get_result, h]

theorem validator_amended_witness :
    validScriptName ("a b") = false ∧
    add_script { scripts := [], metadata := [], results := [] } 0 "a b" "c" =
      (Except.error RepoError.validation,
       { scripts := [], metadata := [], results := [] }) := by
  have hrej := (validator_amended ("a b")).2.1 ⟨' ', by decide, by decide⟩
  exact ⟨hrej, ((validator_amended ("a b")).2.2 hrej
    { scripts := [], metadata := [], results := [] } 0 "c" "t").1⟩

/-- C5: for every valid name and content, `add_script` fails with
`AlreadyExists` iff a content unit is already present for the name; on
success the post-state holds the content and a metadata entry with
`created = last_modified = now`, `last_executed` null and
`execution_count` zero, and the index (the metadata component of the
state) carries that entry. -/
theorem add_script_spec (st : RepoState) (now : Nat)
    (name content : String) (hv : validScriptName name = true) :
    ((add_script st now name content).1 =
        Except.error RepoError.alreadyExists ↔
      (alookup st.scripts name).isSome = true) ∧
    (alookup st.scripts name = none →
      (add_script st now name content).1 = Except.ok () ∧
      alookup (add_script st now name content).2.scripts name =
        some content ∧
      alookup (add_script st now name content).2.metadata name =
        some { created := now, last_modified := now,
               last_executed := none, execution_count := 0 }) := by
  constructor
  · rcases hs : alookup st.scripts name with _ | c <;>
      simp [add_script, hv, hs]
  · intro habs
    simp [add_script, hv, habs, alookup_ainsert]

theorem add_script_spec_witness :
    (add_script { scripts := [("a", "x")], metadata := [], results := [] }
        2 "a" "y").1 = Except.error RepoError.alreadyExists ∧
    alookup (add_script { scripts := [], metadata := [], results := [] }
        2 "a" "y").2.metadata ("a") =
      some { created := 2, last_modified := 2,
             last_executed := none, execution_count := 0 } := by
  refine ⟨?_, ?_⟩
  · exact (add_script_spec
      { scripts := [("a", "x")], metadata := [], results := [] }
      2 "a" "y" (by decide)).1.mpr (by decide)
  · exact ((add_script_spec
      { scripts := [], metadata := [], results := [] }
      2 "a" "y" (by decide)).2 (by decide)).2.2

/-- C6: every repository operation with a valid name preserves the
existence agreement between the content store and the metadata index ("a
script exists iff both its content unit and its metadata entry exist")
whenever the pre-state satisfies it. -/
theorem ops_preserve_consistent (st : RepoState) (now : Nat)
    (name content text : String) (hv : validScriptName name = true)
    (hc : consistent st) :
    consistent (add_script st now name content).2 ∧
    consistent (edit_script st now name content).2 ∧
    consistent (get_script st name).2 ∧
    consistent (remove_script st name).2 ∧
    consistent (save_result st now name text).2 ∧
    consistent (get_result st name).2 ∧
    consistent (list_scripts st).2 := by
  have hb : ∀ k, (alookup st.scripts k).isSome =
      (alookup st.metadata k).isSome := by
    intro k
    have h := hc k
    cases hA : (alookup st.scripts k).isSome <;>
      cases hB : (alookup st.metadata k).isSome <;> simp_all
  refine ⟨?_, ?_, ?_, ?_, ?_, ?_, ?_⟩
  · rcases hs : alookup st.scripts name with _ | c
    · intro n
      simp only [add_script, hv, Bool.not_true, Bool.false_eq_true,
        if_false, hs, Option.isSome_none, Bool.false_eq_true, if_false]
      simp [alookup_ainsert]
      by_cases hn : name = n
      · simp [hn]
      · simp [hn, hb n]
    · intro n
      simpa [add_script, hv, hs] using hc n
  · rcases hs : alookup st.scripts name with _ | c
    · intro n
      simpa [edit_script, hv, hs] using hc n
    · have hm : (alookup st.metadata name).isSome = true := by
        rw [← hb name, hs]; rfl
      rcases hm' : alookup st.metadata name with _ | m
      · rw [hm'] at hm; simp at hm
      · intro n
        simp only [edit_script, hv, Bool.not_true, Bool.false_eq_true,
          if_false, hs, hm']
        simp [alookup_ainsert]
        by_cases hn : name = n
        · simp [hn]
        · simp [hn, hb n]
  · intro n
    rcases hs : alookup st.scripts name with _ | c <;>
      simpa [get_script, hv, hs] using hc n
  · rcases hs : alookup st.scripts name with _ | c
    · intro n
      simpa [remove_script, hv, hs] using hc n
    · intro n
      simp only [remove_script, hv, Bool.not_true, Bool.false_eq_true,
        if_false, hs]
      simp [alookup_aremove]
      by_cases hn : name = n
      · simp [hn]
      · simp [hn, hb n]
  · rcases hm : alookup st.metadata name with _ | m
    · intro n
      simpa [save_result, hv, hm] using hc n
    · intro n
      simp only [save_result, hv, Bool.not_true, Bool.false_eq_true,
        if_false, hm]
      simp [alookup_ainsert]
      by_cases hn : name = n
      · subst hn
        simp [hb name, hm]
      · simp [hn, hb n]
  · intro n
    rcases hr : alookup st.results name with _ | r <;>
      simpa [get_result, hv, hr] using hc n
  · intro n
    simpa [list_scripts] using hc n

theorem ops_preserve_consistent_witness :
    consistent (add_script { scripts := [], metadata := [], results := [] }
      1 "a" "c").2 := by
  have h := ops_preserve_consistent
    { scripts := [], metadata := [], results := [] } 1 "a" "c" "t"
    (by decide) (by intro n; simp [alookup])
  exact h.1

/-- C7: when the launched process exits nonzero, `execute` returns the
output-file contents (or the substitute "No output captured from script."
when the file is absent) followed by the appended diagnostic section
carrying the process's raw stdout and stderr; when it exits zero, the
contents (or substitute) are returned as-is, with nothing appended. -/
theorem executeResult_exit_spec (t : Nat) (rc : Int) (pout perr : String)
    (ofile : Option String) :
    (rc ≠ 0 → executeResult t (.completed rc pout perr) ofile =
      ofile.getD ("No output captured from script.") ++
        "\n\nBlender process output:\nSTDOUT: " ++ pout ++
        "\nSTDERR: " ++ perr) ∧
    (rc = 0 → executeResult t (.completed rc pout perr) ofile =
      ofile.getD ("No output captured from script.")) := by
  constructor
  · intro h
    rcases ofile with _ | s <;>
      simp [executeResult, h, Option.getD, String.append_assoc]
  · intro h
    rcases ofile with _ | s <;> simp [executeResult, h, Option.getD]

theorem executeResult_exit_spec_witness :
    executeResult 60 (.completed 1 "boom" "trace") (some ("out")) =
      "out" ++ "\n\nBlender process output:\nSTDOUT: " ++ "boom" ++
        "\nSTDERR: " ++ "trace" ∧
    executeResult 60 (.completed 0 "boom" "trace") none =
      "No output captured from script." := by
  exact ⟨(executeResult_exit_spec 60 1 "boom" "trace" (some ("out"))).1
      (by decide),
    (executeResult_exit_spec 60 0 "boom" "trace" none).2 rfl⟩

/-- C8: a timed-out execution returns (rather than raises) the message
stating that execution timed out after the configured duration in
seconds, and saving that text with `save_result` still increments the
script's `execution_count` by exactly one when its metadata entry
exists. -/
theorem timeout_result_spec (t : Nat) (ofile : Option String)
    (st : RepoState) (now : Nat) (name : String) (m : ScriptMeta)
    (hv : validScriptName name = true)
    (hm : alookup st.metadata name = some m) :
    executeResult t .timedOut ofile =
      "Script execution timed out after " ++ toString t ++ " seconds" ∧
    (save_result st now name (executeResult t .timedOut ofile)).1 =
      Except.ok () ∧
    (alookup (save_result st now name
        (executeResult t .timedOut ofile)).2.metadata name).map
      (fun m' => m'.execution_count) = some (m.execution_count + 1) := by
  refine ⟨rfl, ?_, ?_⟩
  · simp [save_result, hv, hm]
  · simp [save_result, hv, hm, alookup_ainsert]

theorem timeout_result_spec_witness :
    executeResult 60 .timedOut none =
      "Script execution timed out after " ++ toString 60 ++ " seconds" ∧
    (alookup (save_result
        { scripts := [], results := [],
          metadata := [("a", { created := 0, last_modified := 0,
                               last_executed := none,
                               execution_count := 0 })] }
        4 "a" (executeResult 60 .timedOut none)).2.metadata ("a")).map
      (fun m' => m'.execution_count) = some 1 := by
  have h := timeout_result_spec 60 none
    { scripts := [], results := [],
      metadata := [("a", { created := 0, last_modified := 0,
                           last_executed := none, execution_count := 0 })] }
    4 "a" { created := 0, last_modified := 0,
            last_executed := none, execution_count := 0 }
    (by decide) (by decide)
  exact ⟨h.1, h.2.2⟩

/-- C9: for every valid name, `get_result` returns the soft-miss sentinel
(not an error) whenever no result unit exists; in particular, after a
successful `remove_script`, `get_script` fails with `NotFound` while
`get_result` returns the sentinel. -/
theorem get_result_soft_miss (st : RepoState) (name : String)
    (hv : validScriptName name = true)
    (hs : (alookup st.scripts name).isSome = true) :
    (∀ st2 : RepoState, alookup st2.results name = none →
      (get_result st2 name).1 = Except.ok (noResultsMsg name)) ∧
    (remove_script st name).1 = Except.ok () ∧
    (get_script (remove_script st name).2 name).1 =
      Except.error RepoError.notFound ∧
    (get_result (remove_script st name).2 name).1 =
      Except.ok (noResultsMsg name) := by
  refine ⟨?_, ?_, ?_, ?_⟩
  · intro st2 hr
    simp [get_result, hv, hr]
  · simp [remove_script, hv, Option.isSome_iff_ne_none.mp hs]
  · simp [remove_script, get_script, hv,
      Option.isSome_iff_ne_none.mp hs, alookup_aremove]
  · simp [remove_script, get_result, hv,
      Option.isSome_iff_ne_none.mp hs, alookup_aremove]

theorem get_result_soft_miss_witness :
    (get_result (remove_script
        { scripts := [("a", "c")],
          metadata := [("a", { created := 0, last_modified := 0,
                               last_executed := none,
                               execution_count := 0 })],
          results := [("a", "old output")] } ("a")).2 ("a")).1 =
      Except.ok (noResultsMsg ("a")) :=
  (get_result_soft_miss
    { scripts := [("a", "c")],
      metadata := [("a", { created := 0, last_modified := 0,
                           last_executed := none, execution_count := 0 })],
      results := [("a", "old output")] }
    "a" (by decide) (by decide)).2.2.2

/-- C10: the envelope source written by `execute` is the fixed template
with the content substituted after each newline in it is replaced by a
newline plus four spaces; consequently the guarded region holds the
caller's content only up to a uniform four-space indentation of every
line after the first (the first line is placed as-is, each later line
gains exactly four leading spaces). -/
theorem wrappedScript_template_spec (outputFile content : String) :
    wrappedScript outputFile content =
      envPre ++ String.mk (indentChars content.data) ++ envMid ++
        outputFile ++ envPost ∧
    splitLines (indentChars content.data) =
      (splitLines content.data).headD [] ::
        (splitLines content.data).tail.map
          (fun l => ' ' :: ' ' :: ' ' :: ' ' :: l) :=
  ⟨rfl, splitLines_indentChars content.data⟩

end BlenderMcp
